import Mathlib

/-!
Verification of the geo-data preprocessing pipeline
(`preprocessing_func.py`): reprojection and category filtering
(`process_places`, `process_zones`), the spatial join / aggregation /
merge pipeline (`create_choropleth_data`), and the category
partitioner (`filter_datasets`).

GeoDataFrames are modelled as lists of typed rows carrying the columns
the source selects.  Coordinates are rationals.  The point-in-polygon
containment predicate is supplied by an external geodesy library
(shapely, through `gpd.sjoin(..., op='within')`), which the spec
declares out of scope; it is modelled below as boundary-inclusive
rectangle containment, following the spec's reading of "within".
-/

namespace GeoViz

/-- A point geometry: a coordinate pair. -/
structure Pt where
  x : ℚ
  y : ℚ
deriving DecidableEq, Repr

/-- Modelled from the spec: polygon geometry and its containment
predicate come from the external geodesy library (out of the spec's
scope).  Polygons are modelled as axis-aligned rectangles, which
suffice for every scenario the spec states. -/
structure Polygon where
  xmin : ℚ
  ymin : ℚ
  xmax : ℚ
  ymax : ℚ
deriving DecidableEq, Repr

/-- Modelled from the spec: the `op='within'` containment predicate of
`gpd.sjoin`; per spec section 3, "within" means the point lies in the
polygon's interior or on its boundary. -/
def within (p : Pt) (z : Polygon) : Bool :=
  decide (z.xmin ≤ p.x) && decide (p.x ≤ z.xmax) &&
  decide (z.ymin ≤ p.y) && decide (p.y ≤ z.ymax)

/-- A row of the points GeoDataFrame after `process_places`' column
selection: `['name', 'classname', 'street_name', 'postcode', 'url',
'geometry']`. -/
structure PlaceRow where
  name : String
  classname : String
  street_name : String
  postcode : String
  url : String
  geometry : Pt
deriving DecidableEq, Repr

/-- A row of the raw places layer as read from disk: the selected
columns plus whatever extra columns the source file carries. -/
structure RawPlaceRow where
  name : String
  classname : String
  street_name : String
  postcode : String
  url : String
  geometry : Pt
  extra : List (String × String)
deriving DecidableEq, Repr

/-- A row of the polygons GeoDataFrame after `process_zones`' column
selection: `['lsoa11nmw', 'geometry']`. -/
structure ZoneRow where
  lsoa11nmw : String
  geometry : Polygon
deriving DecidableEq, Repr

/-- A row of the raw zones layer as read from disk. -/
structure RawZoneRow where
  lsoa11nmw : String
  geometry : Polygon
  extra : List (String × String)
deriving DecidableEq, Repr

/-- A row of `gpd.sjoin(points_gdf, polygons_gdf, how='inner',
op='within')`: the point's columns joined with the matching polygon's
`lsoa11nmw` key. -/
structure JoinRow where
  place : PlaceRow
  lsoa11nmw : String
deriving DecidableEq, Repr

/-- A row of `counts_df`: the result of
`groupby(['classname', 'lsoa11nmw']).size()` renamed to `count`. -/
structure AggRow where
  classname : String
  lsoa11nmw : String
  count : Nat
deriving DecidableEq, Repr

/-- A row of `choropleth_gdf`: `pd.merge(polygons_gdf, counts_df,
how='inner', on='lsoa11nmw')` yields columns
`lsoa11nmw, geometry, classname, count`. -/
structure ChoroRow where
  lsoa11nmw : String
  geometry : Polygon
  classname : String
  count : Nat
deriving DecidableEq, Repr

/-- Step 1 of `create_choropleth_data`: the inner spatial join
`gpd.sjoin(points_gdf, polygons_gdf, how='inner', op='within')`.
For each point (in input order) one output row per containing polygon
(in input order); points inside no polygon produce no row. -/
def sjoin (points_gdf : List PlaceRow) (polygons_gdf : List ZoneRow) :
    List JoinRow :=
  points_gdf.flatMap fun p =>
    (polygons_gdf.filter fun z => within p.geometry z.geometry).map
      fun z => ⟨p, z.lsoa11nmw⟩

/-- The group key of `groupby(['classname', 'lsoa11nmw'])`. -/
def joinKey (j : JoinRow) : String × String :=
  (j.place.classname, j.lsoa11nmw)

/-- Code-point comparison of characters, as Python compares the
characters of a string. -/
def charLt (c d : Char) : Bool := decide (c.toNat < d.toNat)

/-- Lexicographic code-point comparison of character lists. -/
def listCharLt : List Char → List Char → Bool
  | [], [] => false
  | [], _ :: _ => true
  | _ :: _, [] => false
  | c :: cs, d :: ds => charLt c d || (decide (c = d) && listCharLt cs ds)

/-- Lexicographic code-point comparison of strings, as Python and
pandas order string values. -/
def strLt (a b : String) : Bool := listCharLt a.data b.data

/-- Lexicographic order on group keys, as pandas sorts a two-level
group index: by `classname`, then by `lsoa11nmw`. -/
def keyLe (a b : String × String) : Bool :=
  strLt a.1 b.1 ||
    (decide (a.1 = b.1) && (strLt a.2 b.2 || decide (a.2 = b.2)))

/-- Strict lexicographic order on group keys. -/
def keyLt (a b : String × String) : Bool :=
  strLt a.1 b.1 || (decide (a.1 = b.1) && strLt a.2 b.2)

/-- `keyLe` as a relation, for the sorting lemmas. -/
def keyLeP (a b : String × String) : Prop := keyLe a b = true

instance : DecidableRel keyLeP := fun a b =>
  inferInstanceAs (Decidable (keyLe a b = true))

/-- Step 2 of `create_choropleth_data`:
`groupby(['classname', 'lsoa11nmw']).size()`.  Pandas `groupby` with
the default `sort=True` emits one row per distinct key, with the keys
sorted ascending; the size of a group is the number of joined rows
carrying its key. -/
def aggregate (rows : List JoinRow) : List AggRow :=
  (((rows.map joinKey).dedup).insertionSort keyLeP).map fun k =>
    ⟨k.1, k.2, rows.countP fun j => decide (joinKey j = k)⟩

/-- Step 3 of `create_choropleth_data`:
`pd.merge(polygons_gdf, counts_df, how='inner', on='lsoa11nmw')`.
Inner merge on exact key equality: left (polygon) order, and for each
polygon the matching count rows in their order. -/
def mergeChoropleth (polygons_gdf : List ZoneRow) (counts_df : List AggRow) :
    List ChoroRow :=
  polygons_gdf.flatMap fun z =>
    (counts_df.filter fun a => decide (a.lsoa11nmw = z.lsoa11nmw)).map
      fun a => ⟨z.lsoa11nmw, z.geometry, a.classname, a.count⟩

/-- `create_choropleth_data`: spatial join, then group-count, then
inner merge back onto the polygon geometries. -/
def create_choropleth_data (points_gdf : List PlaceRow)
    (polygons_gdf : List ZoneRow) : List ChoroRow :=
  mergeChoropleth polygons_gdf (aggregate (sjoin points_gdf polygons_gdf))

/-- The literal layer name hardcoded in `process_places`. -/
def placesLayerName : String := "Points of Interest 2023_06"

/-- The literal source CRS hardcoded in `process_places`
(`gdf_places.crs = 'epsg:27700'`). -/
def placesSourceCRS : String := "epsg:27700"

/-- The literal target CRS hardcoded in `process_places`
(`.to_crs(epsg=4326)`). -/
def placesTargetCRS : String := "epsg:4326"

/-- The literal classname values hardcoded in `process_places`'
`isin` filter. -/
def placeClassnames : List String :=
  ["Pubs, Bars and Inns", "Cafes, Snack Bars and Tea Rooms"]

/-- A GeoDataFrame together with its frame-level CRS tag. -/
structure PlacesFrame where
  crs : String
  rows : List PlaceRow
deriving DecidableEq, Repr

/-- `process_places`, modelled from the point after the (out-of-scope)
file read: the raw rows of the named layer are tagged with the
hardcoded CRS `'epsg:27700'`, filtered to the two hardcoded
classnames, projected to the selected columns, and reprojected to the
hardcoded `epsg:4326` through the external library's transform
(`reproject source target`), supplied here as a parameter. -/
def process_places (reproject : String → String → Pt → Pt)
    (gdf_places : List RawPlaceRow) : PlacesFrame :=
  ⟨placesTargetCRS,
   (gdf_places.filter fun r => placeClassnames.contains r.classname).map
     fun r =>
       ⟨r.name, r.classname, r.street_name, r.postcode, r.url,
        reproject placesSourceCRS placesTargetCRS r.geometry⟩⟩

/-- The literal target CRS hardcoded in `process_zones`
(`.to_crs(epsg=4326)`). -/
def zonesTargetCRS : String := "epsg:4326"

/-- A zones GeoDataFrame with its frame-level CRS tag. -/
structure ZonesFrame where
  crs : String
  rows : List ZoneRow
deriving DecidableEq, Repr

/-- `process_zones`, modelled from the point after the file read:
`gpd.read_file(path)` yields rows whose CRS tag `fileCRS` comes from
the file's metadata; the source selects `['lsoa11nmw', 'geometry']`
and reprojects from that metadata CRS to the hardcoded `epsg:4326`. -/
def process_zones (reproject : String → String → Polygon → Polygon)
    (fileCRS : String) (gdf_zones : List RawZoneRow) : ZonesFrame :=
  ⟨zonesTargetCRS,
   gdf_zones.map fun r =>
     ⟨r.lsoa11nmw, reproject fileCRS zonesTargetCRS r.geometry⟩⟩

/-- The literal cafe classname used by `filter_datasets`. -/
def cafeClass : String := "Cafes, Snack Bars and Tea Rooms"

/-- The literal bar classname used by `filter_datasets`. -/
def barClass : String := "Pubs, Bars and Inns"

/-- The dictionary returned by `filter_datasets`. -/
structure FilteredDatasets where
  cafe_gdf : List PlaceRow
  bar_gdf : List PlaceRow
  cafe_choropleth_gdf : List ChoroRow
  bar_choropleth_gdf : List ChoroRow
deriving DecidableEq, Repr

/-- `filter_datasets`: four equality filters on `classname`. -/
def filter_datasets (points_gdf : List PlaceRow)
    (choropleth_gdf : List ChoroRow) : FilteredDatasets :=
  ⟨points_gdf.filter fun r => decide (r.classname = cafeClass),
   points_gdf.filter fun r => decide (r.classname = barClass),
   choropleth_gdf.filter fun c => decide (c.classname = cafeClass),
   choropleth_gdf.filter fun c => decide (c.classname = barClass)⟩

/-- `create_popup_html`: literal substitution into the popup template. -/
def create_popup_html (name address url : String) : String :=
  "\n    <div>\n        <h4 style=\"margin-bottom:0;\"><a href=\"" ++ url ++
  "\" target=\"_blank\">" ++ name ++
  "</a></h4>\n        <p style=\"margin-top:0;\"><strong>Address:</strong> " ++
  address ++ "</p>\n    </div>\n    "

/-- `create_tooltip_html`: literal substitution into the tooltip
template. -/
def create_tooltip_html (name : String) : String :=
  "<div style='font-size: 12px; font-weight: bold;'>" ++ name ++ "</div>"

/-! ### Concrete inputs from the spec's scenarios -/

/-- The rational 0.1, written as a raw reduced fraction so that it
evaluates by kernel reduction; `tenth_eq` below relates it to 1/10. -/
def tenth : ℚ := ⟨1, 10, by decide, by decide⟩

/-- The spec's three-point scenario: a cafe and a pub at (0.1, 0.1),
inside zone Z1, and a cafe at (5, 5), inside zone Z2. -/
def scenarioPoints : List PlaceRow :=
  [⟨"c1", "Cafe", "s1", "pc1", "u1", ⟨tenth, tenth⟩⟩,
   ⟨"p1", "Pub", "s2", "pc2", "u2", ⟨tenth, tenth⟩⟩,
   ⟨"c2", "Cafe", "s3", "pc3", "u3", ⟨5, 5⟩⟩]

/-- The spec's two zones: Z1 spanning (0,0)-(1,1) and Z2 spanning
(4,4)-(6,6). -/
def scenarioPolys : List ZoneRow :=
  [⟨"Z1", ⟨0, 0, 1, 1⟩⟩, ⟨"Z2", ⟨4, 4, 6, 6⟩⟩]

/-- A join-pair multiset in which the lexicographically smaller group
key (Cafe, Z2) has the smaller count: one (Cafe, Z2) pair and two
(Pub, Z1) pairs. -/
def skewedPairs : List JoinRow :=
  [⟨⟨"b1", "Pub", "s1", "pc1", "u1", ⟨0, 0⟩⟩, "Z1"⟩,
   ⟨⟨"a1", "Cafe", "s2", "pc2", "u2", ⟨0, 0⟩⟩, "Z2"⟩,
   ⟨⟨"b2", "Pub", "s3", "pc3", "u3", ⟨0, 0⟩⟩, "Z1"⟩]

/-- Modelled from the spec: the zone-key normalization (case,
whitespace) the spec requires before the merge; no such normalization
exists anywhere in the source.  Strips leading and trailing spaces
and lowercases letters. -/
def normalizeKey (s : String) : String :=
  ⟨(((s.data.dropWhile fun c => decide (c = ' ')).reverse.dropWhile
      fun c => decide (c = ' ')).reverse).map Char.toLower⟩

/-- A reprojection probe recording which CRS identifiers it is called
with: the output x coordinate is 1 exactly when the source CRS it
receives is the hardcoded British grid code, the output y coordinate
is 1 exactly when the target is the hardcoded geographic code. -/
def probeReproject (src tgt : String) (_p : Pt) : Pt :=
  ⟨if src = "epsg:27700" then 1 else 0,
   if tgt = "epsg:4326" then 1 else 0⟩

/-- A raw place row carrying one of the filtered classnames, for the
probe. -/
def sampleRaw : RawPlaceRow :=
  ⟨"n", "Pubs, Bars and Inns", "s", "pc", "u", ⟨0, 0⟩, []⟩

/-- The output ordering the spec asserts for aggregate records,
stated in the spec's words: descending by count, with ties broken by
(category, zone_key) lexicographic ascending. -/
def specAggOrder : List AggRow → Prop :=
  List.Pairwise fun a b =>
    b.count < a.count ∨
      (a.count = b.count ∧
        keyLeP (a.classname, a.lsoa11nmw) (b.classname, b.lsoa11nmw))

instance (l : List AggRow) : Decidable (specAggOrder l) :=
  List.instDecidablePairwise l

/-! ### Order facts about the group-key ordering -/

theorem charLt_trans {a b c : Char} (h1 : charLt a b = true)
    (h2 : charLt b c = true) : charLt a c = true := by
  simp only [charLt, decide_eq_true_eq] at h1 h2 ⊢
  omega

theorem charLt_irrefl (a : Char) : charLt a a = false := by
  simp [charLt]

theorem char_tri (c d : Char) : charLt c d = true ∨ c = d ∨ charLt d c = true := by
  rcases Nat.lt_trichotomy c.toNat d.toNat with h | h | h
  · left
    simpa [charLt]
  · right
    left
    exact Char.ext (UInt32.eq_of_toBitVec_eq (BitVec.eq_of_toNat_eq h))
  · right
    right
    simpa [charLt]

theorem listCharLt_trans : ∀ (l1 l2 l3 : List Char),
    listCharLt l1 l2 = true → listCharLt l2 l3 = true →
      listCharLt l1 l3 = true
  | _, [], [] => fun _ h23 => by simp [listCharLt] at h23
  | _, _ :: _, [] => fun _ h23 => by simp [listCharLt] at h23
  | [], _, _ :: _ => fun _ _ => rfl
  | _ :: _, [], _ :: _ => fun h12 _ => by simp [listCharLt] at h12
  | c :: cs, d :: ds, e :: es => fun h12 h23 => by
    simp only [listCharLt, Bool.or_eq_true, Bool.and_eq_true,
      decide_eq_true_eq] at h12 h23 ⊢
    rcases h12 with h12 | ⟨rfl, h12⟩
    · rcases h23 with h23 | ⟨rfl, _⟩
      · exact Or.inl (charLt_trans h12 h23)
      · exact Or.inl h12
    · rcases h23 with h23 | ⟨rfl, h23⟩
      · exact Or.inl h23
      · exact Or.inr ⟨rfl, listCharLt_trans _ _ _ h12 h23⟩

theorem listCharLt_asymm : ∀ (l1 l2 : List Char),
    listCharLt l1 l2 = true → listCharLt l2 l1 = true → False
  | [], [] => fun h _ => by simp [listCharLt] at h
  | [], _ :: _ => fun _ h => by simp [listCharLt] at h
  | _ :: _, [] => fun h _ => by simp [listCharLt] at h
  | c :: cs, d :: ds => fun h12 h21 => by
    simp only [listCharLt, Bool.or_eq_true, Bool.and_eq_true,
      decide_eq_true_eq] at h12 h21
    rcases h12 with h12 | ⟨rfl, h12⟩
    · rcases h21 with h21 | ⟨rfl, _⟩
      · exact absurd (charLt_trans h12 h21) (by simp [charLt])
      · exact absurd h12 (by simp [charLt])
    · rcases h21 with h21 | ⟨_, h21⟩
      · exact absurd h21 (by simp [charLt])
      · exact listCharLt_asymm _ _ h12 h21

theorem listCharLt_tri : ∀ (l1 l2 : List Char),
    listCharLt l1 l2 = true ∨ l1 = l2 ∨ listCharLt l2 l1 = true
  | [], [] => Or.inr (Or.inl rfl)
  | [], _ :: _ => Or.inl rfl
  | _ :: _, [] => Or.inr (Or.inr rfl)
  | c :: cs, d :: ds => by
    rcases char_tri c d with h | h | h
    · left
      simp [listCharLt, h]
    · subst h
      rcases listCharLt_tri cs ds with h2 | h2 | h2
      · left
        simp [listCharLt, h2]
      · right
        left
        rw [h2]
      · right
        right
        simp [listCharLt, h2]
    · right
      right
      simp [listCharLt, h]

theorem strLt_trans {a b c : String} (h1 : strLt a b = true)
    (h2 : strLt b c = true) : strLt a c = true :=
  listCharLt_trans _ _ _ h1 h2

theorem strLt_asymm {a b : String} (h1 : strLt a b = true)
    (h2 : strLt b a = true) : False :=
  listCharLt_asymm _ _ h1 h2

theorem strLt_irrefl (a : String) : strLt a a ≠ true :=
  fun h => strLt_asymm h h

theorem strLt_tri (a b : String) : strLt a b = true ∨ a = b ∨ strLt b a = true := by
  rcases listCharLt_tri a.data b.data with h | h | h
  · exact Or.inl h
  · refine Or.inr (Or.inl ?_)
    cases a
    cases b
    exact congrArg String.mk h
  · exact Or.inr (Or.inr h)

theorem keyLeP_iff {a b : String × String} :
    keyLeP a b ↔ strLt a.1 b.1 = true ∨
      (a.1 = b.1 ∧ (strLt a.2 b.2 = true ∨ a.2 = b.2)) := by
  simp [keyLeP, keyLe, Bool.or_eq_true, Bool.and_eq_true, decide_eq_true_eq]

theorem keyLt_iff {a b : String × String} :
    keyLt a b = true ↔ strLt a.1 b.1 = true ∨ (a.1 = b.1 ∧ strLt a.2 b.2 = true) := by
  simp [keyLt, Bool.or_eq_true, Bool.and_eq_true, decide_eq_true_eq]

instance : IsTotal (String × String) keyLeP := by
  constructor
  intro a b
  rw [keyLeP_iff, keyLeP_iff]
  rcases strLt_tri a.1 b.1 with h | h | h
  · exact Or.inl (Or.inl h)
  · rcases strLt_tri a.2 b.2 with h2 | h2 | h2
    · exact Or.inl (Or.inr ⟨h, Or.inl h2⟩)
    · exact Or.inl (Or.inr ⟨h, Or.inr h2⟩)
    · exact Or.inr (Or.inr ⟨h.symm, Or.inl h2⟩)
  · exact Or.inr (Or.inl h)

instance : IsTrans (String × String) keyLeP := by
  constructor
  intro a b c hab hbc
  rw [keyLeP_iff] at hab hbc ⊢
  rcases hab with h1 | ⟨e1, h1⟩
  · rcases hbc with h2 | ⟨e2, _⟩
    · exact Or.inl (strLt_trans h1 h2)
    · exact Or.inl (e2 ▸ h1)
  · rcases hbc with h2 | ⟨e2, h2⟩
    · exact Or.inl (e1 ▸ h2)
    · refine Or.inr ⟨e1.trans e2, ?_⟩
      rcases h1 with h1 | h1
      · rcases h2 with h2 | h2
        · exact Or.inl (strLt_trans h1 h2)
        · exact Or.inl (h2 ▸ h1)
      · rcases h2 with h2 | h2
        · exact Or.inl (h1 ▸ h2)
        · exact Or.inr (h1.trans h2)

instance : IsAntisymm (String × String) keyLeP := by
  constructor
  intro a b hab hba
  rw [keyLeP_iff] at hab hba
  rcases hab with h1 | ⟨e1, h1⟩
  · rcases hba with h2 | ⟨e2, _⟩
    · exact (strLt_asymm h1 h2).elim
    · exact absurd h1 (e2 ▸ strLt_irrefl _)
  · rcases hba with h2 | ⟨e2, h2⟩
    · exact absurd h2 (e1 ▸ strLt_irrefl _)
    · rcases h1 with h1 | h1
      · rcases h2 with h2 | h2
        · exact (strLt_asymm h1 h2).elim
        · exact absurd h1 (h2 ▸ strLt_irrefl _)
      · exact Prod.ext e1 h1

theorem keyLeP_ne_keyLt {a b : String × String} (hle : keyLeP a b)
    (hne : a ≠ b) : keyLt a b = true := by
  rw [keyLeP_iff] at hle
  rw [keyLt_iff]
  rcases hle with h | ⟨e, h | h⟩
  · exact Or.inl h
  · exact Or.inr ⟨e, h⟩
  · exact absurd (Prod.ext e h) hne

/-! ### Shared structural lemmas about the pipeline stages -/

theorem mem_sjoin {points_gdf : List PlaceRow} {polygons_gdf : List ZoneRow}
    {j : JoinRow} :
    j ∈ sjoin points_gdf polygons_gdf ↔
      j.place ∈ points_gdf ∧ ∃ z ∈ polygons_gdf,
        within j.place.geometry z.geometry = true ∧ j.lsoa11nmw = z.lsoa11nmw := by
  simp only [sjoin, List.mem_flatMap, List.mem_map, List.mem_filter]
  constructor
  · rintro ⟨p, hp, z, ⟨hz, hw⟩, rfl⟩
    exact ⟨hp, z, hz, hw, rfl⟩
  · rintro ⟨hp, z, hz, hw, hk⟩
    exact ⟨j.place, hp, z, ⟨hz, hw⟩, by cases j; simp_all⟩

theorem sjoin_countP (points_gdf : List PlaceRow) (polygons_gdf : List ZoneRow)
    (p : PlaceRow) :
    (sjoin points_gdf polygons_gdf).countP (fun j => decide (j.place = p)) =
      points_gdf.count p *
        polygons_gdf.countP (fun z => within p.geometry z.geometry) := by
  induction points_gdf with
  | nil => simp [sjoin]
  | cons q rest ih =>
    rw [sjoin, List.flatMap_cons, List.countP_append]
    rw [sjoin] at ih
    rw [ih, List.count_cons]
    have hseg : ((polygons_gdf.filter fun z =>
        within q.geometry z.geometry).map fun z =>
          (⟨q, z.lsoa11nmw⟩ : JoinRow)).countP (fun j => decide (j.place = p)) =
        if q = p then polygons_gdf.countP fun z => within p.geometry z.geometry
        else 0 := by
      by_cases hqp : q = p
      · subst hqp
        rw [if_pos rfl, List.countP_map, List.countP_filter]
        apply List.countP_congr
        intro z _
        simp [Function.comp]
      · rw [if_neg hqp, List.countP_eq_zero]
        rintro j hj
        simp only [List.mem_map] at hj
        obtain ⟨z, _, rfl⟩ := hj
        simp [hqp]
    rw [hseg]
    by_cases hqp : q = p
    · simp only [if_pos hqp, hqp, beq_self_eq_true, if_pos]
      ring
    · simp [hqp]

theorem mem_mergeChoropleth {polygons_gdf : List ZoneRow}
    {counts_df : List AggRow} {c : ChoroRow} :
    c ∈ mergeChoropleth polygons_gdf counts_df ↔
      ∃ z ∈ polygons_gdf, ∃ a ∈ counts_df, a.lsoa11nmw = z.lsoa11nmw ∧
        c = ⟨z.lsoa11nmw, z.geometry, a.classname, a.count⟩ := by
  simp only [mergeChoropleth, List.mem_flatMap, List.mem_map, List.mem_filter,
    decide_eq_true_eq]
  constructor
  · rintro ⟨z, hz, a, ⟨ha, hk⟩, rfl⟩
    exact ⟨z, hz, a, ha, hk, rfl⟩
  · rintro ⟨z, hz, a, ha, hk, rfl⟩
    exact ⟨z, hz, a, ⟨ha, hk⟩, rfl⟩

theorem mergeChoropleth_countP (polygons_gdf : List ZoneRow)
    (counts_df : List AggRow) (k : String) :
    (mergeChoropleth polygons_gdf counts_df).countP
        (fun c => decide (c.lsoa11nmw = k)) =
      polygons_gdf.countP (fun z => decide (z.lsoa11nmw = k)) *
        counts_df.countP (fun a => decide (a.lsoa11nmw = k)) := by
  induction polygons_gdf with
  | nil => simp [mergeChoropleth]
  | cons z rest ih =>
    rw [mergeChoropleth, List.flatMap_cons, List.countP_append]
    rw [mergeChoropleth] at ih
    rw [ih, List.countP_cons]
    have hseg : ((counts_df.filter fun a =>
        decide (a.lsoa11nmw = z.lsoa11nmw)).map fun a =>
          (⟨z.lsoa11nmw, z.geometry, a.classname, a.count⟩ : ChoroRow)).countP
          (fun c => decide (c.lsoa11nmw = k)) =
        if z.lsoa11nmw = k then
          counts_df.countP (fun a => decide (a.lsoa11nmw = k))
        else 0 := by
      by_cases hzk : z.lsoa11nmw = k
      · subst hzk
        rw [if_pos rfl, List.countP_map, List.countP_filter]
        apply List.countP_congr
        intro a _
        simp [Function.comp]
      · rw [if_neg hzk, List.countP_eq_zero]
        rintro c hc
        simp only [List.mem_map] at hc
        obtain ⟨a, _, rfl⟩ := hc
        simp [hzk]
    rw [hseg]
    by_cases hzk : z.lsoa11nmw = k
    · simp only [if_pos hzk, decide_eq_true hzk, if_pos]
      ring
    · simp [hzk]

theorem mem_aggregate {rows : List JoinRow} {a : AggRow} :
    a ∈ aggregate rows ↔
      (a.classname, a.lsoa11nmw) ∈ rows.map joinKey ∧
        a.count = rows.countP
          (fun j => decide (joinKey j = (a.classname, a.lsoa11nmw))) := by
  unfold aggregate
  rw [List.mem_map]
  constructor
  · rintro ⟨k, hk, rfl⟩
    rw [(List.perm_insertionSort keyLeP _).mem_iff, List.mem_dedup] at hk
    exact ⟨hk, rfl⟩
  · rintro ⟨hk, hc⟩
    refine ⟨(a.classname, a.lsoa11nmw), ?_, ?_⟩
    · rw [(List.perm_insertionSort keyLeP _).mem_iff, List.mem_dedup]
      exact hk
    · cases a
      simp_all

theorem aggregate_pairwise_keyLt (rows : List JoinRow) :
    List.Pairwise
      (fun a b : AggRow =>
        keyLt (a.classname, a.lsoa11nmw) (b.classname, b.lsoa11nmw) = true)
      (aggregate rows) := by
  unfold aggregate
  rw [List.pairwise_map]
  have hsorted : List.Sorted keyLeP
      (((rows.map joinKey).dedup).insertionSort keyLeP) :=
    List.sorted_insertionSort keyLeP _
  have hnodup : (((rows.map joinKey).dedup).insertionSort keyLeP).Nodup :=
    (List.perm_insertionSort keyLeP _).nodup_iff.mpr (List.nodup_dedup _)
  exact (hsorted.and hnodup).imp fun h => keyLeP_ne_keyLt h.1 h.2

theorem tenth_eq : tenth = 1 / 10 := by
  rw [tenth, Rat.mk'_eq_divInt, Rat.divInt_eq_div]
  norm_num

theorem mergeChoropleth_nil (polygons_gdf : List ZoneRow) :
    mergeChoropleth polygons_gdf [] = [] := by
  induction polygons_gdf with
  | nil => rfl
  | cons z rest ih => simp [mergeChoropleth]

/-! ### Claim theorems -/

/-- C1, counterexample: the aggregation of `create_choropleth_data`
does not order its records descending by count.  On a pair multiset
with one (Cafe, Z2) pair and two (Pub, Z1) pairs, the code
(`groupby` with its default key sort) emits (Cafe, Z2, 1) before
(Pub, Z1, 2), so the counts appear in ascending order. -/
theorem aggregate_count_order_counterexample :
    aggregate skewedPairs = [⟨"Cafe", "Z2", 1⟩, ⟨"Pub", "Z1", 2⟩] ∧
      ¬ specAggOrder (aggregate skewedPairs) := by
  constructor
  · decide
  · decide

/-- C1, amended: the aggregation step of `create_choropleth_data`
emits its records ordered ascending by the (category, zone_key) group
key, lexicographically, regardless of count; on the spec's
three-point/two-zone scenario, where all counts tie at 1, this gives
the three records (Cafe, Z1), (Cafe, Z2), (Pub, Z1), each with
count 1. -/
theorem aggregate_order_key_ascending :
    (∀ rows : List JoinRow, List.Pairwise
        (fun a b : AggRow =>
          keyLt (a.classname, a.lsoa11nmw) (b.classname, b.lsoa11nmw) = true)
        (aggregate rows)) ∧
      aggregate (sjoin scenarioPoints scenarioPolys) =
        [⟨"Cafe", "Z1", 1⟩, ⟨"Cafe", "Z2", 1⟩, ⟨"Pub", "Z1", 1⟩] := by
  constructor
  · exact aggregate_pairwise_keyLt
  · decide

/-- C2: every record emitted by the aggregation step of
`create_choropleth_data` carries a count equal to the exact number of
join pairs with its (classname, lsoa11nmw) key, and that count is at
least 1, so no zero-count combination is ever materialized. -/
theorem aggregate_count_correct (rows : List JoinRow) (a : AggRow)
    (ha : a ∈ aggregate rows) :
    a.count = rows.countP
        (fun j => decide (joinKey j = (a.classname, a.lsoa11nmw))) ∧
      1 ≤ a.count := by
  rw [mem_aggregate] at ha
  obtain ⟨hk, hc⟩ := ha
  refine ⟨hc, ?_⟩
  rw [hc]
  rw [List.mem_map] at hk
  obtain ⟨j, hj, hkey⟩ := hk
  have : 0 < rows.countP
      fun j' => decide (joinKey j' = (a.classname, a.lsoa11nmw)) :=
    List.countP_pos_iff.mpr ⟨j, hj, by simp [hkey]⟩
  omega

/-- Witness for C2 at the concrete pair list `skewedPairs` and the
record (Pub, Z1, 2). -/
theorem aggregate_count_correct_witness :
    (⟨"Pub", "Z1", 2⟩ : AggRow) ∈ aggregate skewedPairs ∧
      ((⟨"Pub", "Z1", 2⟩ : AggRow).count = skewedPairs.countP
          (fun j => decide (joinKey j = ("Pub", "Z1"))) ∧
        1 ≤ (⟨"Pub", "Z1", 2⟩ : AggRow).count) :=
  ⟨by decide, aggregate_count_correct skewedPairs ⟨"Pub", "Z1", 2⟩ (by decide)⟩

/-- C3: the spatial join of `create_choropleth_data` emits a pair for
a point and a zone key exactly when the point's row is present and
some polygon row with that key contains the point (boundary
inclusive); counting pairs, every occurrence of a point yields one
pair per containing polygon, so a point inside no polygon is silently
dropped and a point inside k polygons yields exactly k pairs. -/
theorem sjoin_within_iff_and_count (points_gdf : List PlaceRow)
    (polygons_gdf : List ZoneRow) :
    (∀ j : JoinRow, j ∈ sjoin points_gdf polygons_gdf ↔
        j.place ∈ points_gdf ∧ ∃ z ∈ polygons_gdf,
          within j.place.geometry z.geometry = true ∧
            j.lsoa11nmw = z.lsoa11nmw) ∧
      ∀ p : PlaceRow,
        (sjoin points_gdf polygons_gdf).countP
            (fun j => decide (j.place = p)) =
          points_gdf.count p *
            polygons_gdf.countP (fun z => within p.geometry z.geometry) :=
  ⟨fun _ => mem_sjoin, sjoin_countP points_gdf polygons_gdf⟩

/-- C4: the choropleth assembly of `create_choropleth_data` is an
inner merge on `lsoa11nmw`: a row is in the output exactly when it
combines a polygon row and an aggregate row with equal zone keys
(so every output zone key exists in the polygon input and has at
least one matching aggregate); counting rows with a given zone key,
each polygon row with that key appears once per aggregate row with
that key, hence once per category with a non-zero count, and a
polygon with no aggregate row is absent. -/
theorem mergeChoropleth_inner (polygons_gdf : List ZoneRow)
    (counts_df : List AggRow) :
    (∀ c : ChoroRow, c ∈ mergeChoropleth polygons_gdf counts_df ↔
        ∃ z ∈ polygons_gdf, ∃ a ∈ counts_df, a.lsoa11nmw = z.lsoa11nmw ∧
          c = ⟨z.lsoa11nmw, z.geometry, a.classname, a.count⟩) ∧
      ∀ k : String,
        (mergeChoropleth polygons_gdf counts_df).countP
            (fun c => decide (c.lsoa11nmw = k)) =
          polygons_gdf.countP (fun z => decide (z.lsoa11nmw = k)) *
            counts_df.countP (fun a => decide (a.lsoa11nmw = k)) :=
  ⟨fun _ => mem_mergeChoropleth, mergeChoropleth_countP polygons_gdf counts_df⟩

/-- C7: an empty points input propagates as emptiness through every
stage: the spatial join is empty, the aggregation is empty, and
`create_choropleth_data` returns an empty collection (there is no
failure value anywhere in the pipeline). -/
theorem empty_points_empty_pipeline (polygons_gdf : List ZoneRow) :
    sjoin [] polygons_gdf = [] ∧
      aggregate (sjoin [] polygons_gdf) = [] ∧
        create_choropleth_data [] polygons_gdf = [] := by
  refine ⟨rfl, rfl, ?_⟩
  show mergeChoropleth polygons_gdf (aggregate (sjoin [] polygons_gdf)) = []
  exact mergeChoropleth_nil polygons_gdf

/-- C8: the aggregation step is deterministic up to input
permutation: two runs on the same multiset of join pairs, presented
in any two orders, produce identical records in identical order. -/
theorem aggregate_perm_invariant (rows1 rows2 : List JoinRow)
    (h : rows1.Perm rows2) : aggregate rows1 = aggregate rows2 := by
  unfold aggregate
  have hkeys : (rows1.map joinKey).dedup.Perm (rows2.map joinKey).dedup :=
    (h.map joinKey).dedup
  have hperm : ((rows1.map joinKey).dedup.insertionSort keyLeP).Perm
      ((rows2.map joinKey).dedup.insertionSort keyLeP) :=
    (List.perm_insertionSort keyLeP _).trans
      (hkeys.trans (List.perm_insertionSort keyLeP _).symm)
  have heq : (rows1.map joinKey).dedup.insertionSort keyLeP =
      (rows2.map joinKey).dedup.insertionSort keyLeP :=
    List.eq_of_perm_of_sorted hperm
      (List.sorted_insertionSort keyLeP _) (List.sorted_insertionSort keyLeP _)
  rw [heq]
  apply List.map_congr_left
  intro k _
  rw [h.countP_eq]

/-- Witness for C8: `skewedPairs` and its reversal are permutations
of each other and aggregate identically. -/
theorem aggregate_perm_invariant_witness :
    skewedPairs.Perm skewedPairs.reverse ∧
      aggregate skewedPairs = aggregate skewedPairs.reverse :=
  ⟨by decide, aggregate_perm_invariant skewedPairs skewedPairs.reverse (by decide)⟩

/-- C5, counterexample: zone keys are not normalized before the merge
and no JoinKeyError is ever raised: with polygon key "Z1 " and
aggregate key "z1" — the same key up to case and whitespace, as
`normalizeKey` shows — the merge silently returns the empty
collection instead of matching the keys or failing. -/
theorem merge_no_normalization_counterexample :
    normalizeKey "Z1 " = normalizeKey "z1" ∧
      mergeChoropleth [⟨"Z1 ", ⟨0, 0, 1, 1⟩⟩] [⟨"Cafe", "z1", 1⟩] = [] := by
  constructor
  · decide
  · decide

/-- C5, amended: the merge inside `create_choropleth_data` compares
zone keys by exact string equality only, performs no normalization,
and is total (it never raises): every output row comes from an
exactly matching polygon/aggregate key pair, and when no polygon key
exactly equals any aggregate key the result is the empty collection —
keys equivalent only up to case or whitespace are silently dropped. -/
theorem merge_exact_equality_total (polygons_gdf : List ZoneRow)
    (counts_df : List AggRow) :
    (∀ c ∈ mergeChoropleth polygons_gdf counts_df,
        ∃ z ∈ polygons_gdf, ∃ a ∈ counts_df,
          z.lsoa11nmw = c.lsoa11nmw ∧ a.lsoa11nmw = c.lsoa11nmw) ∧
      ((∀ z ∈ polygons_gdf, ∀ a ∈ counts_df, z.lsoa11nmw ≠ a.lsoa11nmw) →
        mergeChoropleth polygons_gdf counts_df = []) := by
  constructor
  · intro c hc
    rw [mem_mergeChoropleth] at hc
    obtain ⟨z, hz, a, ha, hak, rfl⟩ := hc
    exact ⟨z, hz, a, ha, rfl, hak⟩
  · intro h
    rw [List.eq_nil_iff_forall_not_mem]
    intro c hc
    rw [mem_mergeChoropleth] at hc
    obtain ⟨z, hz, a, ha, hak, rfl⟩ := hc
    exact h z hz a ha hak.symm

/-- C6, counterexample: the CRS identifiers are not parameters of the
pipeline functions: `process_places` accepts only the raw rows and
internally passes the hardcoded country-specific source CRS
'epsg:27700' and target 'epsg:4326' to the reprojection — the probe
records exactly those two constants — and the category labels are
likewise hardcoded internal constants. -/
theorem crs_hardcoded_counterexample :
    placesSourceCRS = "epsg:27700" ∧
      (process_places probeReproject [sampleRaw]).rows.map
          (fun r => r.geometry) = [⟨1, 1⟩] ∧
        placeClassnames =
          ["Pubs, Bars and Inns", "Cafes, Snack Bars and Tea Rooms"] := by
  refine ⟨rfl, ?_, rfl⟩
  decide

/-- C6, amended: the CRS identifiers and category labels are
hardcoded constants of the pipeline, not caller parameters: whatever
the caller's data, `process_places` tags its output 'epsg:4326',
keeps only rows whose classname is one of the two hardcoded labels,
and reprojects every geometry with the hardcoded pair
('epsg:27700', 'epsg:4326'); `process_zones` tags its output
'epsg:4326' and takes its source CRS from the file's metadata
rather than from an explicit caller parameter. -/
theorem crs_hardcoded_amended (reproject : String → String → Pt → Pt)
    (reprojectPoly : String → String → Polygon → Polygon)
    (fileCRS : String) (gdf_places : List RawPlaceRow)
    (gdf_zones : List RawZoneRow) :
    (process_places reproject gdf_places).crs = "epsg:4326" ∧
      (∀ r ∈ (process_places reproject gdf_places).rows,
        (r.classname = "Pubs, Bars and Inns" ∨
          r.classname = "Cafes, Snack Bars and Tea Rooms") ∧
          ∃ r0 ∈ gdf_places, r.classname = r0.classname ∧
            r.geometry = reproject "epsg:27700" "epsg:4326" r0.geometry) ∧
        (process_zones reprojectPoly fileCRS gdf_zones).crs = "epsg:4326" ∧
          ∀ r ∈ (process_zones reprojectPoly fileCRS gdf_zones).rows,
            ∃ r0 ∈ gdf_zones, r.lsoa11nmw = r0.lsoa11nmw ∧
              r.geometry = reprojectPoly fileCRS "epsg:4326" r0.geometry := by
  refine ⟨rfl, ?_, rfl, ?_⟩
  · intro r hr
    simp only [process_places, List.mem_map, List.mem_filter] at hr
    obtain ⟨r0, ⟨hr0, hcls⟩, rfl⟩ := hr
    simp [placeClassnames] at hcls
    constructor
    · exact hcls
    · exact ⟨r0, hr0, rfl, rfl⟩
  · intro r hr
    simp only [process_zones, List.mem_map] at hr
    obtain ⟨r0, hr0, rfl⟩ := hr
    exact ⟨r0, hr0, rfl, rfl⟩

/-- C9: `filter_datasets` partitions by classname: every row of
`cafe_gdf` has classname 'Cafes, Snack Bars and Tea Rooms', every row
of `bar_gdf` has classname 'Pubs, Bars and Inns', likewise the two
choropleth subsets; the cafe and bar subsets are disjoint, and an
input row with neither classname lands in no subset. -/
theorem filter_datasets_partition (points_gdf : List PlaceRow)
    (choropleth_gdf : List ChoroRow) :
    (∀ r ∈ (filter_datasets points_gdf choropleth_gdf).cafe_gdf,
        r.classname = "Cafes, Snack Bars and Tea Rooms") ∧
      (∀ r ∈ (filter_datasets points_gdf choropleth_gdf).bar_gdf,
        r.classname = "Pubs, Bars and Inns") ∧
      (∀ c ∈ (filter_datasets points_gdf choropleth_gdf).cafe_choropleth_gdf,
        c.classname = "Cafes, Snack Bars and Tea Rooms") ∧
      (∀ c ∈ (filter_datasets points_gdf choropleth_gdf).bar_choropleth_gdf,
        c.classname = "Pubs, Bars and Inns") ∧
      (∀ r, r ∈ (filter_datasets points_gdf choropleth_gdf).cafe_gdf →
        r ∉ (filter_datasets points_gdf choropleth_gdf).bar_gdf) ∧
      (∀ c, c ∈ (filter_datasets points_gdf choropleth_gdf).cafe_choropleth_gdf →
        c ∉ (filter_datasets points_gdf choropleth_gdf).bar_choropleth_gdf) ∧
      ∀ r ∈ points_gdf, r.classname ≠ "Cafes, Snack Bars and Tea Rooms" →
        r.classname ≠ "Pubs, Bars and Inns" →
          r ∉ (filter_datasets points_gdf choropleth_gdf).cafe_gdf ∧
            r ∉ (filter_datasets points_gdf choropleth_gdf).bar_gdf := by
  simp only [filter_datasets, List.mem_filter, decide_eq_true_eq, cafeClass,
    barClass]
  refine ⟨fun r h => h.2, fun r h => h.2, fun c h => h.2, fun c h => h.2,
    ?_, ?_, ?_⟩
  · rintro r ⟨_, hc⟩ ⟨_, hb⟩
    rw [hc] at hb
    exact absurd hb (by decide)
  · rintro c ⟨_, hc⟩ ⟨_, hb⟩
    rw [hc] at hb
    exact absurd hb (by decide)
  · intro r _ hnc hnb
    exact ⟨fun h => hnc h.2, fun h => hnb h.2⟩

/-- C10: `create_choropleth_data` preserves geometry: when the
polygon input's zone keys are pairwise distinct, every output row's
geometry equals the geometry of the input polygon row carrying the
same `lsoa11nmw` key.  (All embedded pipeline stages are pure: the
pandas operations used — sjoin, groupby, merge — return fresh frames,
so the input collections are left unchanged.) -/
theorem choropleth_geometry_preserved (points_gdf : List PlaceRow)
    (polygons_gdf : List ZoneRow)
    (huniq : List.Pairwise
      (fun z1 z2 : ZoneRow => z1.lsoa11nmw ≠ z2.lsoa11nmw) polygons_gdf) :
    ∀ c ∈ create_choropleth_data points_gdf polygons_gdf,
      ∀ z ∈ polygons_gdf, z.lsoa11nmw = c.lsoa11nmw →
        c.geometry = z.geometry := by
  intro c hc z hz hk
  rw [create_choropleth_data, mem_mergeChoropleth] at hc
  obtain ⟨z', hz', a, _, _, rfl⟩ := hc
  by_cases hzz : z = z'
  · subst hzz
    rfl
  · have hsym : Symmetric
        (fun z1 z2 : ZoneRow => z1.lsoa11nmw ≠ z2.lsoa11nmw) :=
      fun _ _ h => h.symm
    exact absurd (by simpa using hk) (huniq.forall hsym hz hz' hzz)

/-- Witness for C10 on the spec's scenario: the output row
(Z1, Cafe, 1) carries the geometry of the input polygon Z1. -/
theorem choropleth_geometry_preserved_witness :
    (⟨"Z1", ⟨0, 0, 1, 1⟩, "Cafe", 1⟩ : ChoroRow).geometry =
      (⟨"Z1", ⟨0, 0, 1, 1⟩⟩ : ZoneRow).geometry :=
  choropleth_geometry_preserved scenarioPoints scenarioPolys (by decide)
    ⟨"Z1", ⟨0, 0, 1, 1⟩, "Cafe", 1⟩ (by decide)
    ⟨"Z1", ⟨0, 0, 1, 1⟩⟩ (by decide) (by decide)

end GeoViz
